import Mathlib

/-!
Verification of the zapang structured-logging library (Go) against its
specification.  The development shallowly embeds the two pipeline-construction
units of the repository:

* `src/pkg/logger/logger.go`   — embedded in namespace `Zapang.PkgLogger`
  (destination list `OutputPaths`, environment "development"/"production");
* `src/unnamed/part_002`       — embedded in namespace `Zapang.PartB`
  (always a console core on stdout, optional JSON export core for
  environments "dev"/"prod" via `ExportPath`).

Behaviour supplied by dependencies outside the repository sources
(go.uber.org/zap cores, the sampler, Go contexts and goroutine/channel
semantics) is modelled from the specification; such definitions carry a
doc comment beginning `Modelled from the spec:`.  File-system effects are
abstracted by an oracle `openOk : String → Bool` saying which file paths
can be opened in append mode.
-/

namespace Zapang

/-! Severity levels: zapcore.Level is an int8 with Debug = -1 … Fatal = 5. -/

abbrev Level := Int

def DebugLevel : Level := -1

def InfoLevel : Level := 0

def WarnLevel : Level := 1

def ErrorLevel : Level := 2

def DPanicLevel : Level := 3

def PanicLevel : Level := 4

def FatalLevel : Level := 5

/-- Translation of `parseLevel` (identical in `src/pkg/logger/logger.go`
lines 155-174 and `src/unnamed/part_002` lines 187-206): the Go `switch`
on the level string, defaulting to the informational severity. -/
def parseLevel (level : String) : Level :=
  if level = "debug" then DebugLevel
  else if level = "info" then InfoLevel
  else if level = "warn" ∨ level = "warning" then WarnLevel
  else if level = "error" then ErrorLevel
  else if level = "dpanic" then DPanicLevel
  else if level = "panic" then PanicLevel
  else if level = "fatal" then FatalLevel
  else InfoLevel

/-- The level strings recognised by the `parseLevel` switch. -/
def recognizedLevels : List String :=
  ["debug", "info", "warn", "warning", "error", "dpanic", "panic", "fatal"]

/-! The Severity Controller.  `zap.AtomicLevel` is a shared mutable cell;
we model the heap of such cells explicitly so that sharing of one cell by
several cores is a provable fact rather than a convention. -/

/-- Modelled from the spec: the heap of `zap.AtomicLevel` cells.  A cell is
named by its allocation index; every sink holding the same index reads the
same mutable level value (spec section 4.1). -/
structure AtomicStore where
  levels : List Level
deriving DecidableEq, Repr

/-- Modelled from the spec: `zap.NewAtomicLevelAt` — allocate a fresh shared
level cell initialised to `l`, returning its reference. -/
def newAtomicLevelAt (st : AtomicStore) (l : Level) : Nat × AtomicStore :=
  (st.levels.length, ⟨st.levels ++ [l]⟩)

/-- Modelled from the spec: an atomic read of the shared level cell `r`. -/
def readLevel (st : AtomicStore) (r : Nat) : Level :=
  st.levels.getD r InfoLevel

/-- Modelled from the spec: `AtomicLevel.SetLevel` — an atomic write of the
shared level cell `r`. -/
def setLevelRef (st : AtomicStore) (r : Nat) (l : Level) : AtomicStore :=
  ⟨st.levels.set r l⟩

/-! Sinks (zap cores).  A core pairs an encoder preset with a destination
and a reference to the shared severity cell. -/

/-- Encoder preset: human-readable console form or machine-readable JSON. -/
inductive EncKind where
  | console
  | json
deriving DecidableEq, Repr

/-- A resolved write destination: a standard stream, an opened append-mode
file, or the injected writer `w` passed to `New`/`NewWithLevel`. -/
inductive Dest where
  | stdout
  | stderr
  | file (path : String)
  | writer
deriving DecidableEq, Repr

/-- Modelled from the spec: `zapcore.NewCore(encoder, ws, level)` — a sink
consulting the shared severity cell `levelRef` before accepting an event. -/
structure Core where
  enc : EncKind
  dest : Dest
  levelRef : Nat
deriving DecidableEq, Repr

/-- SamplingConfig from `src/config.go` / `src/pkg/logger/config.go`. -/
structure SamplingConfig where
  Initial : Int
  Thereafter : Int
deriving DecidableEq, Repr

/-! The sampler.  `zapcore.NewSamplerWithOptions` lives in the zap
dependency, outside the repository sources; it is modelled from the spec
(section 4.4): per (level, message) key, a counter that resets at the start
of each rolling one-second window, emitting occurrence `n` of the window
iff `n ≤ initial ∨ (thereafter ≠ 0 ∧ (n - initial) % thereafter = 0)`. -/

/-- One nanosecond-resolution second, the sampler tick passed by
`New`/`NewWithLevel` (`time.Second`). -/
def tick : Int := 1000000000

/-- A log event as far as routing is concerned: severity, message and
timestamp (nanoseconds). -/
structure Event where
  level : Level
  message : String
  time : Int
deriving DecidableEq, Repr

/-- Modelled from the spec: the sampler's per-key counter — the end of the
current window and the number of occurrences counted in it. -/
structure Counter where
  resetAt : Int
  count : Nat
deriving DecidableEq, Repr

/-- Sampler parameters after the construction sites convert the Go ints
(spec: both non-negative). -/
structure SamplerCfg where
  first : Nat
  thereafter : Nat
deriving DecidableEq, Repr

/-- Modelled from the spec: a fresh per-key counter (window closed, count 0). -/
def initCounter : Counter := ⟨0, 0⟩

/-- Modelled from the spec: the sampler state, one counter per
(level, message) key. -/
def SamplerState := List ((Level × String) × Counter)

instance : DecidableEq SamplerState := by
  unfold SamplerState
  infer_instance

/-- Look up the counter of key `k`, a fresh counter if `k` is unseen. -/
def lookupCounter : SamplerState → (Level × String) → Counter
  | [], _ => initCounter
  | (k', c) :: rest, k => if k' = k then c else lookupCounter rest k

/-- Replace the counter of key `k` (inserting it if unseen). -/
def insertCounter : SamplerState → (Level × String) → Counter → SamplerState
  | [], k, c => [(k, c)]
  | (k', c') :: rest, k, c =>
      if k' = k then (k, c) :: rest else (k', c') :: insertCounter rest k c

/-- Modelled from the spec: the counter step at time `tn` — while the window
is open (`tn < resetAt`) increment; otherwise start a new window at `tn`
with count 1.  Returns the occurrence number within the current window. -/
def incCheckReset (c : Counter) (tn : Int) : Nat × Counter :=
  if tn < c.resetAt then
    (c.count + 1, ⟨c.resetAt, c.count + 1⟩)
  else
    (1, ⟨tn + tick, 1⟩)

/-- Modelled from the spec: the sampler decision for event `e` — count the
occurrence of key (level, message) in its window, drop when
`n > first ∧ (thereafter = 0 ∨ (n - first) % thereafter ≠ 0)`. -/
def sampleCheck (sc : SamplerCfg) (st : SamplerState) (e : Event) :
    Bool × SamplerState :=
  let key := (e.level, e.message)
  let c := lookupCounter st key
  let nc := incCheckReset c e.time
  let emit : Bool :=
    ¬ (nc.1 > sc.first ∧ (sc.thereafter = 0 ∨ (nc.1 - sc.first) % sc.thereafter ≠ 0))
  (emit, insertCounter st key nc.2)

/-- Run the sampler over a sequence of events, returning the per-event
emit decisions and the final state. -/
def runSampler (sc : SamplerCfg) (st : SamplerState) :
    List Event → List Bool × SamplerState
  | [] => ([], st)
  | e :: es =>
      let bs := sampleCheck sc st e
      let rest := runSampler sc bs.2 es
      (bs.1 :: rest.1, rest.2)

/-- The decision rule exactly as the specification words it (section 4.4):
emit the `n`-th occurrence iff `n ≤ initial`, or `thereafter > 0` and
`(n - initial) % thereafter = 0`. -/
def specEmitRule (sc : SamplerCfg) (n : Nat) : Prop :=
  n ≤ sc.first ∨ (0 < sc.thereafter ∧ (n - sc.first) % sc.thereafter = 0)

instance (sc : SamplerCfg) (n : Nat) : Decidable (specEmitRule sc n) := by
  unfold specEmitRule
  infer_instance

/-! The assembled pipeline: the tee over the constructed cores, possibly
wrapped in a sampler, plus the shared severity cell it was built with. -/

/-- The combined core handed to `zap.New`: the list of sinks (tee order),
the sampler configuration when `cfg.Sampling != nil && Initial > 0`, and
the reference of the `zap.AtomicLevel` every sink consults. -/
structure Pipeline where
  levelRef : Nat
  cores : List Core
  sampling : Option SamplerCfg
deriving DecidableEq, Repr

/-- Modelled from the spec: a single core's `Enabled` test — the event's
severity is at or above the shared threshold read from the controller. -/
def coreEnabled (st : AtomicStore) (c : Core) (lvl : Level) : Bool :=
  decide (readLevel st c.levelRef ≤ lvl)

/-- Modelled from the spec: the tee's `Check` — every sink whose `Enabled`
test passes receives the event. -/
def teeCheck (st : AtomicStore) (cores : List Core) (lvl : Level) : List Core :=
  cores.filter (fun c => coreEnabled st c lvl)

/-- Modelled from the spec: one routing step of the assembled pipeline.
Without a sampler the event goes to the tee directly.  With a sampler, the
sampler first consults `Enabled` of the wrapped tee (any sink enabled);
only then does it touch the per-key counter, and only an emitted event
reaches the tee.  Returns the sinks that receive the event and the new
sampler state. -/
def check (st : AtomicStore) (p : Pipeline) (ss : SamplerState) (e : Event) :
    List Core × SamplerState :=
  match p.sampling with
  | none => (teeCheck st p.cores e.level, ss)
  | some sc =>
      if p.cores.any (fun c => coreEnabled st c e.level) then
        let bs := sampleCheck sc ss e
        if bs.1 then (teeCheck st p.cores e.level, bs.2) else ([], bs.2)
      else ([], ss)

/-! Logger handles.  A `*zap.Logger` owns the combined core and a set of
permanently bound fields; `With` derives a new handle sharing the core. -/

/-- A bound key-value field. -/
structure Field where
  key : String
  value : String
deriving DecidableEq, Repr

/-- Modelled from the spec: a `*zap.Logger` handle — the shared combined
core (with its severity-cell reference) plus the handle's bound fields. -/
structure ZapLogger where
  core : Pipeline
  fields : List Field
deriving DecidableEq, Repr

/-- Modelled from the spec: `zap.Logger.With` — a derived handle sharing
the core and carrying the parent's fields extended by `fs`. -/
def With (l : ZapLogger) (fs : List Field) : ZapLogger :=
  ⟨l.core, l.fields ++ fs⟩

/-- Translation of `WithTraceID` (`src/unnamed/part_002` lines 175-180):
attach trace and span identifiers. -/
def WithTraceID (l : ZapLogger) (traceID spanID : String) : ZapLogger :=
  With l [⟨"trace_id", traceID⟩, ⟨"span_id", spanID⟩]

/-- Translation of `WithError` (`src/unnamed/part_002` lines 183-185):
attach the error as a field. -/
def WithError (l : ZapLogger) (err : String) : ZapLogger :=
  With l [⟨"error", err⟩]

/-- Translation of `Logger.SetLevel` (`src/pkg/logger/logger.go` lines
122-125): write the handle's shared severity cell to the parsed level. -/
def SetLevel (st : AtomicStore) (l : ZapLogger) (level : String) : AtomicStore :=
  setLevelRef st l.core.levelRef (parseLevel level)

/-- Translation of `Logger.GetLevel` (`src/pkg/logger/logger.go` lines
127-130): read the handle's shared severity cell. -/
def GetLevel (st : AtomicStore) (l : ZapLogger) : Level :=
  readLevel st l.core.levelRef

/-- Modelled from the spec: `zap.NewNop` — a handle with no sinks, which
therefore discards every event. -/
def NewNop : ZapLogger := ⟨⟨0, [], none⟩, []⟩

/-- The sampler configuration installed by both construction variants:
present iff `cfg.Sampling != nil && cfg.Sampling.Initial > 0`. -/
def samplerOfConfig (s : Option SamplingConfig) : Option SamplerCfg :=
  match s with
  | none => none
  | some sc =>
      if sc.Initial > 0 then some ⟨sc.Initial.toNat, sc.Thereafter.toNat⟩ else none

/-- Translation of `buildOptions` (identical in both units): the permanent
service field bound to every handle the construction returns. -/
def serviceFields (serviceName : String) : List Field :=
  [⟨"service", serviceName⟩]

namespace PartB

/-- Environment constants of `src/unnamed/part_002` lines 21-25. -/
def EnvLocal : String := "local"

/-- Environment constant `EnvProd`. -/
def EnvProd : String := "prod"

/-- Environment constant `EnvDev`. -/
def EnvDev : String := "dev"

/-- Config of `src/config.go` (the `ExportPath` variant). -/
structure Config where
  Level : String
  Environment : String
  ExportPath : String
  Sampling : Option SamplingConfig
  DisableCaller : Bool
  DisableStacktrace : Bool
  StacktraceLevel : String
deriving DecidableEq, Repr

/-- Translation of `buildConsoleCore` (`src/unnamed/part_002` lines
245-248): a console-encoded sink on stdout consulting the shared cell. -/
def buildConsoleCore (r : Nat) : Core := ⟨EncKind.console, Dest.stdout, r⟩

/-- Translation of `buildJSONExportCore` (`src/unnamed/part_002` lines
251-269): resolve the sentinel destinations, otherwise open the path in
append mode — on failure (`openOk path = false`) return no core. -/
def buildJSONExportCore (openOk : String → Bool) (path : String) (r : Nat) :
    Option Core :=
  if path = "stdout" then some ⟨EncKind.json, Dest.stdout, r⟩
  else if path = "stderr" then some ⟨EncKind.json, Dest.stderr, r⟩
  else if openOk path then some ⟨EncKind.json, Dest.file path, r⟩
  else none

/-- Translation of `NewWithLevel` (`src/unnamed/part_002` lines 87-135):
allocate the shared atomic level at the parsed configured level, always add
the console core, add the JSON export core for dev/prod when `ExportPath`
is set and resolvable, add the injected-writer core when `w` is given, wrap
in the sampler when configured, and bind the service field.  Returns the
handle, the level-cell reference and the updated cell heap. -/
def NewWithLevel (openOk : String → Bool) (serviceName : String) (cfg : Config)
    (w : Bool) (st : AtomicStore) : ZapLogger × Nat × AtomicStore :=
  let rs := newAtomicLevelAt st (parseLevel cfg.Level)
  let r := rs.1
  let cores := [buildConsoleCore r]
  let cores := cores ++
    (if cfg.ExportPath ≠ "" ∧ (cfg.Environment = EnvDev ∨ cfg.Environment = EnvProd)
     then (buildJSONExportCore openOk cfg.ExportPath r).toList else [])
  let cores := cores ++ (if w then [⟨EncKind.console, Dest.writer, r⟩] else [])
  let p : Pipeline := ⟨r, cores, samplerOfConfig cfg.Sampling⟩
  (⟨p, serviceFields serviceName⟩, r, rs.2)

/-- Translation of `New` (`src/unnamed/part_002` lines 73-83): build via
`NewWithLevel` and return the handle (registration of the handle as the
process-wide default is modelled by the registry argument of
`FromContext`/`Global`). -/
def New (openOk : String → Bool) (serviceName : String) (cfg : Config)
    (w : Bool) (st : AtomicStore) : ZapLogger × AtomicStore :=
  let lrs := NewWithLevel openOk serviceName cfg w st
  (lrs.1, lrs.2.2)

/-- Translation of `SetGlobalLevel` (`src/unnamed/part_002` lines 167-172):
write the registered global level cell to the parsed level. -/
def SetGlobalLevel (st : AtomicStore) (globalLevel : Nat) (level : String) :
    AtomicStore :=
  setLevelRef st globalLevel (parseLevel level)

end PartB

namespace PkgLogger

/-- Config of `src/pkg/logger/config.go` (the `OutputPaths` variant). -/
structure Config where
  Level : String
  Environment : String
  OutputPaths : List String
  ErrorOutputPaths : List String
  Sampling : Option SamplingConfig
  DisableCaller : Bool
  DisableStacktrace : Bool
  StacktraceLevel : String
deriving DecidableEq, Repr

/-- Translation of `newEncoder` (`src/pkg/logger/logger.go` lines 211-216):
console encoding in the "development" environment, JSON otherwise. -/
def newEncoder (env : String) : EncKind :=
  if env = "development" then EncKind.console else EncKind.json

/-- Translation of `buildCore` (`src/pkg/logger/logger.go` lines 218-236):
resolve the sentinel destinations, otherwise open the path in append mode —
on failure return no core; the core uses the environment's encoder. -/
def buildCore (openOk : String → Bool) (path : String) (r : Nat) (env : String) :
    Option Core :=
  if path = "stdout" then some ⟨newEncoder env, Dest.stdout, r⟩
  else if path = "stderr" then some ⟨newEncoder env, Dest.stderr, r⟩
  else if openOk path then some ⟨newEncoder env, Dest.file path, r⟩
  else none

/-- Translation of `New` (`src/pkg/logger/logger.go` lines 33-97): allocate
the shared atomic level at the parsed configured level, build a core per
configured output path (dropping unresolvable ones), add the injected-writer
core when `w` is given, fall back to a single stdout core when no core was
configured, wrap in the sampler when configured, and bind the service
field. -/
def New (openOk : String → Bool) (serviceName : String) (cfg : Config)
    (w : Bool) (st : AtomicStore) : ZapLogger × AtomicStore :=
  let rs := newAtomicLevelAt st (parseLevel cfg.Level)
  let r := rs.1
  let cores := cfg.OutputPaths.filterMap
    (fun path => buildCore openOk path r cfg.Environment)
  let cores := cores ++
    (if w then [⟨newEncoder cfg.Environment, Dest.writer, r⟩] else [])
  let cores :=
    if cores.isEmpty then [⟨newEncoder cfg.Environment, Dest.stdout, r⟩] else cores
  let p : Pipeline := ⟨r, cores, samplerOfConfig cfg.Sampling⟩
  (⟨p, serviceFields serviceName⟩, rs.2)

end PkgLogger

/-! The context carrier and the process-wide registry.  Go's
`context.WithValue`/`Value` are standard-library behaviour, modelled from
the spec (section 4.7): the carrier holds at most one value under the
private context key, the nearest attachment shadowing older ones.  A Go
`*zap.Logger` is nullable, so the attached value is an `Option ZapLogger`
(`none` being the nil pointer), as is the registry slot. -/

/-- Modelled from the spec: an ambient call context — either the empty root
context or a parent context extended with a value under the logger key. -/
inductive Ctx where
  | background
  | withValue (parent : Ctx) (v : Option ZapLogger)
deriving DecidableEq

/-- Modelled from the spec: `ctx.Value(ctxKey)` with the type assertion of
`FromContext` — the most recently attached logger value, if any. -/
def ctxValue : Ctx → Option (Option ZapLogger)
  | Ctx.background => none
  | Ctx.withValue _ v => some v

/-- Translation of `WithContext` (`src/pkg/logger/logger.go` lines 107-110
and `src/unnamed/part_002` lines 145-148): attach the (possibly nil) handle
to the context. -/
def WithContext (ctx : Ctx) (l : Option ZapLogger) : Ctx :=
  Ctx.withValue ctx l

/-- Translation of `Global` (`src/pkg/logger/logger.go` lines 112-120 and
`src/unnamed/part_002` lines 150-158): the registered global handle, or the
no-op handle when none was registered.  `globalLogger` is passed explicitly
(`none` = not yet initialised). -/
def Global (globalLogger : Option ZapLogger) : Option ZapLogger :=
  match globalLogger with
  | none => some NewNop
  | some g => some g

/-- Translation of `FromContext` (`src/pkg/logger/logger.go` lines 99-105
and `src/unnamed/part_002` lines 137-143): the context's attached handle if
the type assertion succeeds, otherwise the global handle. -/
def FromContext (globalLogger : Option ZapLogger) (ctx : Ctx) :
    Option ZapLogger :=
  match ctxValue ctx with
  | some l => l
  | none => Global globalLogger

/-! The shutdown watcher.  Both construction variants start
`go func() { <-ctx.Done(); _ = logger.Sync() }()`.  Goroutine and channel
semantics are outside the sources; modelled from the spec (sections 4.6
and 9): the watcher waits for the cancellation signal once, performs one
flush, and is finished — later signals find no watcher to run.  `Sync`
flushes sink buffers; it appends no bytes to any sink and its error is
discarded, so a flush never alters delivered content. -/

/-- Modelled from the spec: the observable actions while the pipeline is
live — a cancellation of the construction context, an emitted record
reaching the sinks, or an explicit `Sync` call by the owner. -/
inductive SEvent where
  | cancel
  | emit (record : String)
  | syncCall
deriving DecidableEq, Repr

/-- Modelled from the spec: the watcher-visible state — whether the watcher
already consumed the cancellation signal, how many flushes the watcher
performed, how many flushes happened in total, and the bytes written. -/
structure WatchState where
  fired : Bool
  watcherSyncs : Nat
  totalSyncs : Nat
  content : List String
deriving DecidableEq, Repr

/-- The initial watcher state right after construction. -/
def initWatch : WatchState := ⟨false, 0, 0, []⟩

/-- Modelled from the spec: one step of the pipeline's lifecycle.  The
first cancellation wakes the watcher, which performs its single flush and
exits; a later cancellation finds the watcher gone and does nothing.
Flushes (watcher or explicit) write no content and surface no error. -/
def stepWatch (s : WatchState) : SEvent → WatchState
  | SEvent.cancel =>
      if s.fired then s
      else ⟨true, s.watcherSyncs + 1, s.totalSyncs + 1, s.content⟩
  | SEvent.emit record => ⟨s.fired, s.watcherSyncs, s.totalSyncs, s.content ++ [record]⟩
  | SEvent.syncCall => ⟨s.fired, s.watcherSyncs, s.totalSyncs + 1, s.content⟩

/-- Run the lifecycle over a sequence of events. -/
def runWatch (evs : List SEvent) : WatchState :=
  evs.foldl stepWatch initWatch

/-- The records emitted in an event sequence, in order. -/
def emittedRecords (evs : List SEvent) : List String :=
  evs.filterMap (fun ev =>
    match ev with
    | SEvent.emit record => some record
    | _ => none)

/-! Convenience projections of the construction results, and the predicate
describing which destination specifiers resolve to a usable sink. -/

/-- The combined core built by `PartB.NewWithLevel`. -/
def PartB.builtPipeline (openOk : String → Bool) (svc : String)
    (cfg : PartB.Config) (w : Bool) (st : AtomicStore) : Pipeline :=
  (PartB.NewWithLevel openOk svc cfg w st).1.core

/-- The severity-cell reference returned by `PartB.NewWithLevel`. -/
def PartB.builtRef (openOk : String → Bool) (svc : String)
    (cfg : PartB.Config) (w : Bool) (st : AtomicStore) : Nat :=
  (PartB.NewWithLevel openOk svc cfg w st).2.1

/-- The cell heap after `PartB.NewWithLevel` allocated its atomic level. -/
def PartB.builtStore (openOk : String → Bool) (svc : String)
    (cfg : PartB.Config) (w : Bool) (st : AtomicStore) : AtomicStore :=
  (PartB.NewWithLevel openOk svc cfg w st).2.2

/-- The combined core built by `PkgLogger.New`. -/
def PkgLogger.builtPipeline (openOk : String → Bool) (svc : String)
    (cfg : PkgLogger.Config) (w : Bool) (st : AtomicStore) : Pipeline :=
  (PkgLogger.New openOk svc cfg w st).1.core

/-- The cell heap after `PkgLogger.New` allocated its atomic level. -/
def PkgLogger.builtStore (openOk : String → Bool) (svc : String)
    (cfg : PkgLogger.Config) (w : Bool) (st : AtomicStore) : AtomicStore :=
  (PkgLogger.New openOk svc cfg w st).2

/-- A destination specifier resolves to a usable sink: it is one of the
standard-stream sentinels, or a path the file system lets us open. -/
def pathUsable (openOk : String → Bool) (path : String) : Prop :=
  path = "stdout" ∨ path = "stderr" ∨ openOk path = true

instance (openOk : String → Bool) (path : String) :
    Decidable (pathUsable openOk path) := by
  unfold pathUsable
  infer_instance

/-- Whether the sampler of pipeline `p` lets event `e` through in sampler
state `ss` (trivially true when no sampler is installed). -/
def samplerAdmits (p : Pipeline) (ss : SamplerState) (e : Event) : Prop :=
  match p.sampling with
  | none => True
  | some sc => (sampleCheck sc ss e).1 = true

/-! Basic facts about the severity-cell heap. -/

theorem getD_append_singleton {α : Type} (l : List α) (v d : α) :
    (l ++ [v]).getD l.length d = v := by
  induction l with
  | nil => rfl
  | cons a t ih => simp [ih]

theorem getD_set_self {α : Type} (l : List α) (i : Nat) (v d : α)
    (h : i < l.length) : (l.set i v).getD i d = v := by
  induction l generalizing i with
  | nil => simp at h
  | cons a t ih =>
      cases i with
      | zero => rfl
      | succ j => simpa using ih j (by simpa using h)

/-- Reading a cell right after writing it returns the written value. -/
theorem readLevel_setLevelRef_self (st : AtomicStore) (r : Nat) (L : Level)
    (h : r < st.levels.length) : readLevel (setLevelRef st r L) r = L := by
  unfold readLevel setLevelRef
  exact getD_set_self st.levels r L InfoLevel h

/-! Structural facts about the two construction variants. -/

theorem PartB.buildJSONExportCore_levelRef (openOk : String → Bool)
    (path : String) (r : Nat) (c : Core)
    (h : PartB.buildJSONExportCore openOk path r = some c) : c.levelRef = r := by
  unfold PartB.buildJSONExportCore at h
  split at h
  · cases h; rfl
  · split at h
    · cases h; rfl
    · split at h
      · cases h; rfl
      · cases h

theorem PkgLogger.buildCore_levelRef (openOk : String → Bool) (path : String)
    (r : Nat) (env : String) (c : Core)
    (h : PkgLogger.buildCore openOk path r env = some c) : c.levelRef = r := by
  unfold PkgLogger.buildCore at h
  split at h
  · cases h; rfl
  · split at h
    · cases h; rfl
    · split at h
      · cases h; rfl
      · cases h

theorem PartB.builtRef_eq (openOk : String → Bool) (svc : String)
    (cfg : PartB.Config) (w : Bool) (st : AtomicStore) :
    PartB.builtRef openOk svc cfg w st = st.levels.length := rfl

theorem PartB.builtPipeline_levelRef (openOk : String → Bool) (svc : String)
    (cfg : PartB.Config) (w : Bool) (st : AtomicStore) :
    (PartB.builtPipeline openOk svc cfg w st).levelRef = st.levels.length := rfl

theorem PartB.builtStore_eq (openOk : String → Bool) (svc : String)
    (cfg : PartB.Config) (w : Bool) (st : AtomicStore) :
    PartB.builtStore openOk svc cfg w st =
      ⟨st.levels ++ [parseLevel cfg.Level]⟩ := rfl

/-- Membership in a conditional list means membership in one of its
branches. -/
theorem mem_ite_list {α : Type} {c : α} {b : Prop} [Decidable b]
    {l1 l2 : List α} (h : c ∈ if b then l1 else l2) : c ∈ l1 ∨ c ∈ l2 := by
  split at h
  · exact Or.inl h
  · exact Or.inr h

/-- Every core built by `PartB.NewWithLevel` holds the reference of the one
severity cell the construction allocated. -/
theorem PartB.mem_cores_levelRef (openOk : String → Bool) (svc : String)
    (cfg : PartB.Config) (w : Bool) (st : AtomicStore) (c : Core)
    (hc : c ∈ (PartB.builtPipeline openOk svc cfg w st).cores) :
    c.levelRef = st.levels.length := by
  unfold PartB.builtPipeline PartB.NewWithLevel at hc
  simp only [newAtomicLevelAt] at hc
  rcases List.mem_append.mp hc with h1 | h2
  · rcases List.mem_append.mp h1 with h0 | hexp
    · rcases List.mem_cons.mp h0 with he | he
      · rw [he]; rfl
      · exact absurd he (List.not_mem_nil c)
    · rcases mem_ite_list hexp with he | he
      · have hsome : PartB.buildJSONExportCore openOk cfg.ExportPath
            st.levels.length = some c := Option.mem_def.mp (Option.mem_toList.mp he)
        exact PartB.buildJSONExportCore_levelRef openOk cfg.ExportPath
          st.levels.length c hsome
      · exact absurd he (List.not_mem_nil c)
  · rcases mem_ite_list h2 with he | he
    · rcases List.mem_cons.mp he with he | he
      · rw [he]
      · exact absurd he (List.not_mem_nil c)
    · exact absurd he (List.not_mem_nil c)

/-- The console core on stdout is always among the cores `PartB.NewWithLevel`
builds, at the head of the tee. -/
theorem PartB.console_head (openOk : String → Bool) (svc : String)
    (cfg : PartB.Config) (w : Bool) (st : AtomicStore) :
    ∃ rest, (PartB.builtPipeline openOk svc cfg w st).cores =
      PartB.buildConsoleCore st.levels.length :: rest := by
  unfold PartB.builtPipeline PartB.NewWithLevel
  exact ⟨_, rfl⟩

/-- Every core built by `PkgLogger.New` holds the reference of the one
severity cell the construction allocated. -/
theorem PkgLogger.mem_cores_pkg_levelRef (openOk : String → Bool) (svc : String)
    (cfg : PkgLogger.Config) (w : Bool) (st : AtomicStore) (c : Core)
    (hc : c ∈ (PkgLogger.builtPipeline openOk svc cfg w st).cores) :
    c.levelRef = st.levels.length := by
  unfold PkgLogger.builtPipeline PkgLogger.New at hc
  simp only [newAtomicLevelAt] at hc
  rcases mem_ite_list hc with h1 | h1
  · rcases List.mem_cons.mp h1 with he | he
    · rw [he]
    · exact absurd he (List.not_mem_nil c)
  · rcases List.mem_append.mp h1 with h2 | h2
    · rcases List.mem_filterMap.mp h2 with ⟨path, _, hsome⟩
      exact PkgLogger.buildCore_levelRef openOk path st.levels.length
        cfg.Environment c hsome
    · rcases mem_ite_list h2 with he | he
      · rcases List.mem_cons.mp he with he | he
        · rw [he]
        · exact absurd he (List.not_mem_nil c)
      · exact absurd he (List.not_mem_nil c)

/-! Routing lemmas: the tee delivers to every enabled sink and, when the
shared threshold disables all of them, to none. -/

theorem teeCheck_all (st : AtomicStore) (cores : List Core) (lvl : Level)
    (h : ∀ c ∈ cores, coreEnabled st c lvl = true) :
    teeCheck st cores lvl = cores :=
  List.filter_eq_self.mpr h

theorem teeCheck_nil (st : AtomicStore) (cores : List Core) (lvl : Level)
    (h : ∀ c ∈ cores, coreEnabled st c lvl = false) :
    teeCheck st cores lvl = [] := by
  unfold teeCheck
  refine List.filter_eq_nil_iff.mpr ?_
  intro c hc
  simp [h c hc]

/-- When every sink's enabled test fails, the event reaches no sink (with
or without a sampler, which consults the wrapped tee's enabled test
first). -/
theorem check_below (st : AtomicStore) (p : Pipeline) (ss : SamplerState)
    (e : Event) (h : ∀ c ∈ p.cores, coreEnabled st c e.level = false) :
    (check st p ss e).1 = [] := by
  unfold check
  cases hs : p.sampling with
  | none => simp [teeCheck_nil st p.cores e.level h]
  | some sc =>
      have hany : p.cores.any (fun c => coreEnabled st c e.level) = false := by
        rw [List.any_eq_false]
        intro c hc
        simp [h c hc]
      simp [hany]

/-- When every sink's enabled test passes and the sampler admits the event,
the event reaches every sink of the tee. -/
theorem check_above (st : AtomicStore) (p : Pipeline) (ss : SamplerState)
    (e : Event) (hne : p.cores ≠ [])
    (h : ∀ c ∈ p.cores, coreEnabled st c e.level = true)
    (hadm : samplerAdmits p ss e) : (check st p ss e).1 = p.cores := by
  unfold check
  cases hs : p.sampling with
  | none => simp [teeCheck_all st p.cores e.level h]
  | some sc =>
      obtain ⟨c, hcmem⟩ := List.exists_mem_of_ne_nil p.cores hne
      have hany : p.cores.any (fun c => coreEnabled st c e.level) = true :=
        List.any_eq_true.mpr ⟨c, hcmem, h c hcmem⟩
      simp only [samplerAdmits, hs] at hadm
      simp [hany, hadm, teeCheck_all st p.cores e.level h]

/-- A destination specifier that does not resolve yields no core. -/
theorem PkgLogger.buildCore_eq_none (openOk : String → Bool) (path : String)
    (r : Nat) (env : String) (h : ¬ pathUsable openOk path) :
    PkgLogger.buildCore openOk path r env = none := by
  unfold pathUsable at h
  push_neg at h
  obtain ⟨h1, h2, h3⟩ := h
  unfold PkgLogger.buildCore
  rw [if_neg h1, if_neg h2, if_neg h3]

/-- A destination specifier that does not resolve yields no export core. -/
theorem PartB.buildJSONExportCore_eq_none (openOk : String → Bool)
    (path : String) (r : Nat) (h : ¬ pathUsable openOk path) :
    PartB.buildJSONExportCore openOk path r = none := by
  unfold pathUsable at h
  push_neg at h
  obtain ⟨h1, h2, h3⟩ := h
  unfold PartB.buildJSONExportCore
  rw [if_neg h1, if_neg h2, if_neg h3]

/-- C9: a level string outside the recognised set does not fail
construction; `parseLevel` defaults to the informational severity and the
pipeline built from such a configuration starts its shared Severity
Controller at `InfoLevel`. -/
theorem C9_unrecognized_level_defaults_info (s : String)
    (h : s ∉ recognizedLevels) :
    parseLevel s = InfoLevel ∧
    ∀ (openOk : String → Bool) (svc : String) (cfg : PartB.Config) (w : Bool)
      (st : AtomicStore), cfg.Level = s →
      readLevel (PartB.builtStore openOk svc cfg w st)
        (PartB.builtRef openOk svc cfg w st) = InfoLevel := by
  have hp : parseLevel s = InfoLevel := by
    simp only [recognizedLevels, List.mem_cons, List.not_mem_nil, or_false,
      not_or] at h
    obtain ⟨h1, h2, h3, h4, h5, h6, h7, h8⟩ := h
    unfold parseLevel
    rw [if_neg h1, if_neg h2, if_neg (not_or.mpr ⟨h3, h4⟩), if_neg h5,
      if_neg h6, if_neg h7, if_neg h8]
  refine ⟨hp, ?_⟩
  intro openOk svc cfg w st hlvl
  rw [PartB.builtStore_eq, PartB.builtRef_eq]
  unfold readLevel
  rw [hlvl, hp]
  exact getD_append_singleton st.levels InfoLevel InfoLevel

/-- Witness for C9 at the concrete unrecognised level string "verbose". -/
theorem C9_unrecognized_level_defaults_info_witness :
    ("verbose" ∉ recognizedLevels) ∧
    readLevel
      (PartB.builtStore (fun _ => true) "svc"
        ⟨"verbose", "local", "", none, false, false, ""⟩ false ⟨[]⟩)
      (PartB.builtRef (fun _ => true) "svc"
        ⟨"verbose", "local", "", none, false, false, ""⟩ false ⟨[]⟩) = InfoLevel :=
  ⟨by decide,
   (C9_unrecognized_level_defaults_info "verbose" (by decide)).2
     (fun _ => true) "svc" ⟨"verbose", "local", "", none, false, false, ""⟩
     false ⟨[]⟩ rfl⟩

/-- C10: attach-then-retrieve is a round trip — retrieving from a context
that just had a non-nil handle attached returns exactly that handle,
whatever the process-wide registry holds. -/
theorem C10_with_from_context_roundtrip (ctx : Ctx) (l : Option ZapLogger)
    (globalLogger : Option ZapLogger) (_hl : l ≠ none) :
    FromContext globalLogger (WithContext ctx l) = l := rfl

/-- Witness for C10 with a concrete handle and an empty registry. -/
theorem C10_with_from_context_roundtrip_witness :
    ((some NewNop : Option ZapLogger) ≠ none) ∧
    FromContext none (WithContext Ctx.background (some NewNop)) = some NewNop :=
  ⟨by simp,
   C10_with_from_context_roundtrip Ctx.background (some NewNop) none (by simp)⟩

/-- A fallback of this shape is never the empty list. -/
theorem ite_isEmpty_ne_nil (l : List Core) (x : Core) :
    (if l.isEmpty = true then [x] else l) ≠ [] := by
  split
  · simp
  · next h =>
      intro hnil
      rw [hnil] at h
      exact h rfl

/-- C4: every built pipeline has at least one sink.  In the `OutputPaths`
variant, when no configured destination resolves and no writer is injected
the construction falls back to exactly one standard-output sink; in the
`ExportPath` variant the console core on stdout is unconditionally
present. -/
theorem C4_never_zero_sinks (openOk openOkB : String → Bool)
    (svc svcB : String) (cfg : PkgLogger.Config) (cfgB : PartB.Config)
    (w wB : Bool) (st stB : AtomicStore) :
    (PkgLogger.builtPipeline openOk svc cfg w st).cores ≠ [] ∧
    ((∀ path ∈ cfg.OutputPaths, ¬ pathUsable openOk path) → w = false →
      (PkgLogger.builtPipeline openOk svc cfg w st).cores =
        [⟨PkgLogger.newEncoder cfg.Environment, Dest.stdout, st.levels.length⟩]) ∧
    (PartB.builtPipeline openOkB svcB cfgB wB stB).cores ≠ [] ∧
    PartB.buildConsoleCore stB.levels.length ∈
      (PartB.builtPipeline openOkB svcB cfgB wB stB).cores := by
  refine ⟨?_, ?_, ?_, ?_⟩
  · unfold PkgLogger.builtPipeline PkgLogger.New
    simp only [newAtomicLevelAt]
    exact ite_isEmpty_ne_nil _ _
  · intro hall hw
    have hfm : cfg.OutputPaths.filterMap
        (fun path => PkgLogger.buildCore openOk path st.levels.length
          cfg.Environment) = [] := by
      refine List.filterMap_eq_nil_iff.mpr ?_
      intro p hp
      exact PkgLogger.buildCore_eq_none openOk p st.levels.length
        cfg.Environment (hall p hp)
    unfold PkgLogger.builtPipeline PkgLogger.New
    simp only [newAtomicLevelAt]
    simp [hfm, hw]
  · obtain ⟨rest, hrest⟩ := PartB.console_head openOkB svcB cfgB wB stB
    rw [hrest]
    simp
  · obtain ⟨rest, hrest⟩ := PartB.console_head openOkB svcB cfgB wB stB
    rw [hrest]
    exact List.mem_cons_self _ rest

/-- Witness for C4: a configuration whose only output path cannot be
opened and no injected writer — the pipeline is the single stdout sink. -/
theorem C4_never_zero_sinks_witness :
    (∀ path ∈ ["/bad/path.log"], ¬ pathUsable (fun _ => false) path) ∧
    (PkgLogger.builtPipeline (fun _ => false) "svc"
      ⟨"info", "production", ["/bad/path.log"], [], none, false, false, ""⟩
      false ⟨[]⟩).cores =
      [⟨PkgLogger.newEncoder "production", Dest.stdout, 0⟩] :=
  ⟨by decide,
   (C4_never_zero_sinks (fun _ => false) (fun _ => false) "svc" "svc"
      ⟨"info", "production", ["/bad/path.log"], [], none, false, false, ""⟩
      ⟨"info", "local", "", none, false, false, ""⟩ false false ⟨[]⟩
      ⟨[]⟩).2.1 (by decide) rfl⟩

/-- C7: handles derived from one pipeline share the Severity Controller —
`With`-derivation keeps the combined core (hence the controller cell), a
`SetLevel` through a derived handle is immediately visible through the
parent handle, every sibling and every sink, and derived handles remain
independent in their bound fields. -/
theorem C7_shared_severity_controller (openOk : String → Bool) (svc : String)
    (cfg : PartB.Config) (w : Bool) (st : AtomicStore)
    (fs1 fs2 : List Field) (traceID spanID err s : String)
    (l : ZapLogger) (hl : l = (PartB.NewWithLevel openOk svc cfg w st).1)
    (st1 : AtomicStore) (hst1 : st1 = PartB.builtStore openOk svc cfg w st) :
    ((With l fs1).core = l.core ∧
     (WithError (WithTraceID l traceID spanID) err).core = l.core) ∧
    ((With l fs1).fields = l.fields ++ fs1 ∧
     (With l fs2).fields = l.fields ++ fs2 ∧
     (WithTraceID l traceID spanID).fields =
       l.fields ++ [⟨"trace_id", traceID⟩, ⟨"span_id", spanID⟩]) ∧
    (GetLevel (SetLevel st1 (With l fs1) s) l = parseLevel s ∧
     GetLevel (SetLevel st1 (With l fs1) s) (With l fs2) = parseLevel s ∧
     GetLevel (SetLevel st1 (With l fs1) s)
       (WithError (WithTraceID l traceID spanID) err) = parseLevel s) ∧
    (∀ c ∈ l.core.cores,
      readLevel (SetLevel st1 (With l fs1) s) c.levelRef = parseLevel s) := by
  subst hl hst1
  have hlen : (PartB.builtStore openOk svc cfg w st).levels.length =
      st.levels.length + 1 := by
    rw [PartB.builtStore_eq]
    simp
  have hread : ∀ r, r = st.levels.length →
      readLevel (SetLevel (PartB.builtStore openOk svc cfg w st)
        (With (PartB.NewWithLevel openOk svc cfg w st).1 fs1) s) r =
        parseLevel s := by
    intro r hr
    subst hr
    show readLevel (setLevelRef (PartB.builtStore openOk svc cfg w st)
      st.levels.length (parseLevel s)) st.levels.length = parseLevel s
    exact readLevel_setLevelRef_self _ _ _ (by rw [hlen]; omega)
  refine ⟨⟨rfl, rfl⟩, ⟨rfl, rfl, rfl⟩, ⟨?_, ?_, ?_⟩, ?_⟩
  · exact hread _ rfl
  · exact hread _ rfl
  · exact hread _ rfl
  · intro c hc
    exact hread c.levelRef
      (PartB.mem_cores_levelRef openOk svc cfg w st c hc)

/-- Witness for C7: after setting "error" through a derived handle, the
parent handle reads the new level. -/
theorem C7_shared_severity_controller_witness :
    GetLevel
      (SetLevel (PartB.builtStore (fun _ => true) "svc"
          ⟨"info", "local", "", none, false, false, ""⟩ false ⟨[]⟩)
        (With (PartB.NewWithLevel (fun _ => true) "svc"
          ⟨"info", "local", "", none, false, false, ""⟩ false ⟨[]⟩).1
          [⟨"k", "v"⟩]) "error")
      (PartB.NewWithLevel (fun _ => true) "svc"
        ⟨"info", "local", "", none, false, false, ""⟩ false ⟨[]⟩).1 =
      parseLevel "error" :=
  (C7_shared_severity_controller (fun _ => true) "svc"
    ⟨"info", "local", "", none, false, false, ""⟩ false ⟨[]⟩
    [⟨"k", "v"⟩] [] "t" "sp" "e" "error" _ rfl _ rfl).2.2.1.1

/-- The claim C6 exactly as stated: the lookup returns the call-scoped
handle if the context carries one, else the registered default, else the
no-op handle, and it never returns nil. -/
def claimC6Statement : Prop :=
  ∀ (globalLogger : Option ZapLogger) (ctx : Ctx),
    FromContext globalLogger ctx ≠ none ∧
    (∀ l, ctxValue ctx = some l → FromContext globalLogger ctx = l) ∧
    (ctxValue ctx = none → FromContext globalLogger ctx = Global globalLogger)

/-- C6 counterexample: attaching a nil handle (`WithContext ctx nil` — the
Go type assertion still succeeds on a typed nil pointer) makes
`FromContext` return nil, refuting the never-nil clause. -/
theorem C6_as_stated_false : ¬ claimC6Statement := by
  intro h
  exact (h none (WithContext Ctx.background none)).1 rfl

/-- C6 amended: `FromContext` returns the call-scoped handle if the context
carries one, otherwise the registered process-wide default, otherwise the
no-op handle (whose pipeline delivers no event to any sink); the result is
non-nil provided every handle attached to the context is non-nil. -/
theorem C6_from_context_amended (globalLogger : Option ZapLogger) (ctx : Ctx) :
    (∀ l, ctxValue ctx = some l → FromContext globalLogger ctx = l) ∧
    (ctxValue ctx = none → ∀ g, globalLogger = some g →
      FromContext globalLogger ctx = some g) ∧
    (ctxValue ctx = none → globalLogger = none →
      FromContext globalLogger ctx = some NewNop) ∧
    ((∀ l, ctxValue ctx = some l → l ≠ none) →
      FromContext globalLogger ctx ≠ none) ∧
    (∀ (st : AtomicStore) (ss : SamplerState) (e : Event),
      (check st NewNop.core ss e).1 = []) := by
  refine ⟨?_, ?_, ?_, ?_, ?_⟩
  · intro l hv
    unfold FromContext
    rw [hv]
  · intro hv g hg
    unfold FromContext
    rw [hv, hg]
    rfl
  · intro hv hg
    unfold FromContext
    rw [hv, hg]
    rfl
  · intro hnn
    unfold FromContext
    cases hv : ctxValue ctx with
    | some l => exact hnn l hv
    | none => cases globalLogger <;> simp [Global]
  · intro st ss e
    rfl

/-- Witness for C6 (amended): an empty context with no registered default
yields the no-op handle, which delivers events nowhere. -/
theorem C6_from_context_amended_witness :
    FromContext none Ctx.background = some NewNop ∧
    (check ⟨[]⟩ NewNop.core [] ⟨ErrorLevel, "boom", 0⟩).1 = [] :=
  ⟨(C6_from_context_amended none Ctx.background).2.2.1 rfl rfl,
   (C6_from_context_amended none Ctx.background).2.2.2.2 ⟨[]⟩ []
     ⟨ErrorLevel, "boom", 0⟩⟩

/-- The destination a specifier resolves to when resolution succeeds:
sentinels map to the standard streams, anything else to an append-mode
file. -/
def destOf (path : String) : Dest :=
  if path = "stdout" then Dest.stdout
  else if path = "stderr" then Dest.stderr
  else Dest.file path

/-- A usable export specifier yields exactly the JSON core on its resolved
destination. -/
theorem PartB.buildJSONExportCore_usable (openOk : String → Bool)
    (path : String) (r : Nat) (h : pathUsable openOk path) :
    PartB.buildJSONExportCore openOk path r =
      some ⟨EncKind.json, destOf path, r⟩ := by
  by_cases h1 : path = "stdout"
  · simp [PartB.buildJSONExportCore, destOf, h1]
  · by_cases h2 : path = "stderr"
    · simp [PartB.buildJSONExportCore, destOf, h1, h2]
    · rcases h with h | h | h
      · exact absurd h h1
      · exact absurd h h2
      · simp [PartB.buildJSONExportCore, destOf, h1, h2, h]

/-- A usable output specifier yields exactly one core on its resolved
destination, with the environment's encoder. -/
theorem PkgLogger.buildCore_usable (openOk : String → Bool) (path : String)
    (r : Nat) (env : String) (h : pathUsable openOk path) :
    PkgLogger.buildCore openOk path r env =
      some ⟨PkgLogger.newEncoder env, destOf path, r⟩ := by
  by_cases h1 : path = "stdout"
  · simp [PkgLogger.buildCore, destOf, h1]
  · by_cases h2 : path = "stderr"
    · simp [PkgLogger.buildCore, destOf, h1, h2]
    · rcases h with h | h | h
      · exact absurd h h1
      · exact absurd h h2
      · simp [PkgLogger.buildCore, destOf, h1, h2, h]

/-- A core built from some specifier writes to a file only if that file
path was openable. -/
theorem PkgLogger.buildCore_file_dest (openOk : String → Bool) (path : String)
    (r : Nat) (env : String) (c : Core) (q : String)
    (hsome : PkgLogger.buildCore openOk path r env = some c)
    (hdest : c.dest = Dest.file q) : pathUsable openOk q := by
  unfold PkgLogger.buildCore at hsome
  by_cases h1 : path = "stdout"
  · rw [if_pos h1] at hsome
    cases hsome
    simp at hdest
  · rw [if_neg h1] at hsome
    by_cases h2 : path = "stderr"
    · rw [if_pos h2] at hsome
      cases hsome
      simp at hdest
    · rw [if_neg h2] at hsome
      by_cases h3 : openOk path = true
      · rw [if_pos h3] at hsome
        cases hsome
        simp only [Dest.file.injEq] at hdest
        subst hdest
        exact Or.inr (Or.inr h3)
      · rw [if_neg h3] at hsome
        cases hsome

/-- The tee of `PkgLogger.New` is never empty. -/
theorem PkgLogger.cores_pkg_ne_nil (openOk : String → Bool) (svc : String)
    (cfg : PkgLogger.Config) (w : Bool) (st : AtomicStore) :
    (PkgLogger.builtPipeline openOk svc cfg w st).cores ≠ [] := by
  unfold PkgLogger.builtPipeline PkgLogger.New
  simp only [newAtomicLevelAt]
  exact ite_isEmpty_ne_nil _ _

/-- The tee of `PartB.NewWithLevel` is never empty. -/
theorem PartB.cores_ne_nil (openOk : String → Bool) (svc : String)
    (cfg : PartB.Config) (w : Bool) (st : AtomicStore) :
    (PartB.builtPipeline openOk svc cfg w st).cores ≠ [] := by
  obtain ⟨rest, hrest⟩ := PartB.console_head openOk svc cfg w st
  rw [hrest]
  simp

/-- The store of `PkgLogger.New` after allocation. -/
theorem PkgLogger.builtStore_pkg_eq (openOk : String → Bool) (svc : String)
    (cfg : PkgLogger.Config) (w : Bool) (st : AtomicStore) :
    PkgLogger.builtStore openOk svc cfg w st =
      ⟨st.levels ++ [parseLevel cfg.Level]⟩ := rfl

/-- Right after construction, the shared cell of the `OutputPaths` variant
holds the parsed configured minimum level. -/
theorem PkgLogger.readLevel_builtStore_pkg (openOk : String → Bool) (svc : String)
    (cfg : PkgLogger.Config) (w : Bool) (st : AtomicStore) :
    readLevel (PkgLogger.builtStore openOk svc cfg w st) st.levels.length =
      parseLevel cfg.Level := by
  rw [PkgLogger.builtStore_pkg_eq]
  unfold readLevel
  exact getD_append_singleton st.levels _ _

/-- Right after construction, the shared cell of the `ExportPath` variant
holds the parsed configured minimum level. -/
theorem PartB.readLevel_builtStore (openOk : String → Bool) (svc : String)
    (cfg : PartB.Config) (w : Bool) (st : AtomicStore) :
    readLevel (PartB.builtStore openOk svc cfg w st) st.levels.length =
      parseLevel cfg.Level := by
  rw [PartB.builtStore_eq]
  unfold readLevel
  exact getD_append_singleton st.levels _ _

/-- C5: an output destination that cannot be opened is silently dropped —
construction still succeeds (the embedding is a total function returning a
pipeline, with no error channel), the usable destinations keep their sinks,
no sink writes to the failed file, and an enabled, sampler-admitted event
is still delivered to every remaining sink; likewise the `ExportPath`
variant never acquires a sink on an unopenable export file. -/
theorem C5_open_failure_isolated (openOk : String → Bool) (svc : String)
    (cfg : PkgLogger.Config) (w : Bool) (st : AtomicStore) (p q : String)
    (hp : p ∈ cfg.OutputPaths) (hup : pathUsable openOk p)
    (_hq : q ∈ cfg.OutputPaths) (huq : ¬ pathUsable openOk q)
    (openOkB : String → Bool) (svcB : String) (cfgB : PartB.Config)
    (wB : Bool) (stB : AtomicStore)
    (huB : ¬ pathUsable openOkB cfgB.ExportPath) :
    (∃ c ∈ (PkgLogger.builtPipeline openOk svc cfg w st).cores,
      c.dest = destOf p) ∧
    (∀ c ∈ (PkgLogger.builtPipeline openOk svc cfg w st).cores,
      c.dest ≠ Dest.file q) ∧
    (∀ (ss : SamplerState) (e : Event), parseLevel cfg.Level ≤ e.level →
      samplerAdmits (PkgLogger.builtPipeline openOk svc cfg w st) ss e →
      (check (PkgLogger.builtStore openOk svc cfg w st)
        (PkgLogger.builtPipeline openOk svc cfg w st) ss e).1 =
        (PkgLogger.builtPipeline openOk svc cfg w st).cores) ∧
    (∀ c ∈ (PartB.builtPipeline openOkB svcB cfgB wB stB).cores,
      c.dest ≠ Dest.file cfgB.ExportPath) := by
  have hmem : (⟨PkgLogger.newEncoder cfg.Environment, destOf p,
      st.levels.length⟩ : Core) ∈ cfg.OutputPaths.filterMap
      (fun path => PkgLogger.buildCore openOk path st.levels.length
        cfg.Environment) :=
    List.mem_filterMap.mpr ⟨p, hp,
      PkgLogger.buildCore_usable openOk p st.levels.length cfg.Environment hup⟩
  refine ⟨?_, ?_, ?_, ?_⟩
  · refine ⟨⟨PkgLogger.newEncoder cfg.Environment, destOf p,
      st.levels.length⟩, ?_, rfl⟩
    unfold PkgLogger.builtPipeline PkgLogger.New
    simp only [newAtomicLevelAt]
    have hbase : (⟨PkgLogger.newEncoder cfg.Environment, destOf p,
        st.levels.length⟩ : Core) ∈ cfg.OutputPaths.filterMap
        (fun path => PkgLogger.buildCore openOk path st.levels.length
          cfg.Environment) ++
        (if w then [⟨PkgLogger.newEncoder cfg.Environment, Dest.writer,
          st.levels.length⟩] else []) := List.mem_append_left _ hmem
    rw [if_neg ?_]
    · exact hbase
    · intro hE
      have hnil := List.isEmpty_iff.mp hE
      rw [hnil] at hbase
      exact absurd hbase (List.not_mem_nil _)
  · intro c hc hdest
    unfold PkgLogger.builtPipeline PkgLogger.New at hc
    simp only [newAtomicLevelAt] at hc
    rcases mem_ite_list hc with h1 | h1
    · rcases List.mem_cons.mp h1 with he | he
      · rw [he] at hdest
        simp at hdest
      · exact absurd he (List.not_mem_nil c)
    · rcases List.mem_append.mp h1 with h2 | h2
      · rcases List.mem_filterMap.mp h2 with ⟨path, _, hsome⟩
        exact huq (PkgLogger.buildCore_file_dest openOk path st.levels.length
          cfg.Environment c q hsome hdest)
      · rcases mem_ite_list h2 with he | he
        · rcases List.mem_cons.mp he with he | he
          · rw [he] at hdest
            simp at hdest
          · exact absurd he (List.not_mem_nil c)
        · exact absurd he (List.not_mem_nil c)
  · intro ss e hlev hadm
    refine check_above _ _ _ _ (PkgLogger.cores_pkg_ne_nil openOk svc cfg w st)
      ?_ hadm
    intro c hc
    unfold coreEnabled
    rw [PkgLogger.mem_cores_pkg_levelRef openOk svc cfg w st c hc,
      PkgLogger.readLevel_builtStore_pkg openOk svc cfg w st]
    exact decide_eq_true hlev
  · intro c hc hdest
    unfold PartB.builtPipeline PartB.NewWithLevel at hc
    simp only [newAtomicLevelAt] at hc
    rcases List.mem_append.mp hc with h1 | h2
    · rcases List.mem_append.mp h1 with h0 | h0
      · rcases List.mem_cons.mp h0 with he | he
        · rw [he] at hdest
          simp [PartB.buildConsoleCore] at hdest
        · exact absurd he (List.not_mem_nil c)
      · rcases mem_ite_list h0 with he | he
        · rw [PartB.buildJSONExportCore_eq_none openOkB cfgB.ExportPath
            stB.levels.length huB] at he
          exact absurd he (List.not_mem_nil c)
        · exact absurd he (List.not_mem_nil c)
    · rcases mem_ite_list h2 with he | he
      · rcases List.mem_cons.mp he with he | he
        · rw [he] at hdest
          simp at hdest
        · exact absurd he (List.not_mem_nil c)
      · exact absurd he (List.not_mem_nil c)

/-- Witness for C5: one good path, one unopenable path; the good sink is
present, the bad one absent, and an error-level event reaches every
remaining sink. -/
theorem C5_open_failure_isolated_witness :
    ("/good.log" ∈ ["/good.log", "/bad.log"] ∧
      pathUsable (fun s => s == "/good.log") "/good.log" ∧
      ¬ pathUsable (fun s => s == "/good.log") "/bad.log") ∧
    (∃ c ∈ (PkgLogger.builtPipeline (fun s => s == "/good.log") "svc"
      ⟨"info", "production", ["/good.log", "/bad.log"], [], none, false,
        false, ""⟩ false ⟨[]⟩).cores, c.dest = destOf "/good.log") ∧
    (check (PkgLogger.builtStore (fun s => s == "/good.log") "svc"
      ⟨"info", "production", ["/good.log", "/bad.log"], [], none, false,
        false, ""⟩ false ⟨[]⟩)
      (PkgLogger.builtPipeline (fun s => s == "/good.log") "svc"
      ⟨"info", "production", ["/good.log", "/bad.log"], [], none, false,
        false, ""⟩ false ⟨[]⟩) [] ⟨ErrorLevel, "m", 0⟩).1 =
      (PkgLogger.builtPipeline (fun s => s == "/good.log") "svc"
      ⟨"info", "production", ["/good.log", "/bad.log"], [], none, false,
        false, ""⟩ false ⟨[]⟩).cores :=
  ⟨⟨by decide, by decide, by decide⟩,
   (C5_open_failure_isolated (fun s => s == "/good.log") "svc"
      ⟨"info", "production", ["/good.log", "/bad.log"], [], none, false,
        false, ""⟩ false ⟨[]⟩ "/good.log" "/bad.log" (by decide) (by decide)
      (by decide) (by decide) (fun _ => false) "svc"
      ⟨"info", "local", "", none, false, false, ""⟩ false ⟨[]⟩ (by decide)).1,
   (C5_open_failure_isolated (fun s => s == "/good.log") "svc"
      ⟨"info", "production", ["/good.log", "/bad.log"], [], none, false,
        false, ""⟩ false ⟨[]⟩ "/good.log" "/bad.log" (by decide) (by decide)
      (by decide) (by decide) (fun _ => false) "svc"
      ⟨"info", "local", "", none, false, false, ""⟩ false ⟨[]⟩
      (by decide)).2.2.1 [] ⟨ErrorLevel, "m", 0⟩ (by decide) trivial⟩

/-- The claim C3 exactly as stated: local environment gives only console
output; dev/prod with a configured export destination gives a console core
on stdout and a JSON core on the export destination simultaneously. -/
def claimC3Statement : Prop :=
  ∀ (openOk : String → Bool) (svc : String) (cfg : PartB.Config) (w : Bool)
    (st : AtomicStore),
    (cfg.Environment = PartB.EnvLocal →
      ∀ c ∈ (PartB.builtPipeline openOk svc cfg w st).cores,
        c.enc = EncKind.console) ∧
    ((cfg.Environment = PartB.EnvDev ∨ cfg.Environment = PartB.EnvProd) →
      cfg.ExportPath ≠ "" →
      (∃ c ∈ (PartB.builtPipeline openOk svc cfg w st).cores,
        c.enc = EncKind.console ∧ c.dest = Dest.stdout) ∧
      (∃ c ∈ (PartB.builtPipeline openOk svc cfg w st).cores,
        c.enc = EncKind.json ∧ c.dest = destOf cfg.ExportPath))

/-- C3 counterexample: in prod with export path "/log.json" that cannot be
opened, the built pipeline has no JSON core at all — the export sink is
dropped, so a merely configured (not usable) export destination does not
yield machine-readable output. -/
theorem C3_as_stated_false : ¬ claimC3Statement := by
  intro h
  have h2 := (h (fun _ => false) "svc"
    ⟨"info", "prod", "/log.json", none, false, false, ""⟩ false ⟨[]⟩).2
    (Or.inr rfl) (by decide)
  exact absurd h2.2 (by decide)

/-- C3 amended: local environment gives only console-encoded cores; dev or
prod with a non-empty and usable export destination (a sentinel, or a path
the file system opens) gives both the console core on stdout and the JSON
core on the export destination. -/
theorem C3_encoder_selection_amended (openOk : String → Bool) (svc : String)
    (cfg : PartB.Config) (w : Bool) (st : AtomicStore) :
    (cfg.Environment = PartB.EnvLocal →
      ∀ c ∈ (PartB.builtPipeline openOk svc cfg w st).cores,
        c.enc = EncKind.console) ∧
    ((cfg.Environment = PartB.EnvDev ∨ cfg.Environment = PartB.EnvProd) →
      cfg.ExportPath ≠ "" → pathUsable openOk cfg.ExportPath →
      (∃ c ∈ (PartB.builtPipeline openOk svc cfg w st).cores,
        c.enc = EncKind.console ∧ c.dest = Dest.stdout) ∧
      (∃ c ∈ (PartB.builtPipeline openOk svc cfg w st).cores,
        c.enc = EncKind.json ∧ c.dest = destOf cfg.ExportPath)) := by
  constructor
  · intro henv c hc
    unfold PartB.builtPipeline PartB.NewWithLevel at hc
    simp only [newAtomicLevelAt] at hc
    have hcond : ¬ (cfg.ExportPath ≠ "" ∧
        (cfg.Environment = PartB.EnvDev ∨ cfg.Environment = PartB.EnvProd)) := by
      rintro ⟨-, hor | hor⟩
      · rw [henv] at hor
        exact absurd hor (by decide)
      · rw [henv] at hor
        exact absurd hor (by decide)
    rw [if_neg hcond] at hc
    rcases List.mem_append.mp hc with h1 | h2
    · rcases List.mem_append.mp h1 with h0 | h0
      · rcases List.mem_cons.mp h0 with he | he
        · rw [he]; rfl
        · exact absurd he (List.not_mem_nil c)
      · exact absurd h0 (List.not_mem_nil c)
    · rcases mem_ite_list h2 with he | he
      · rcases List.mem_cons.mp he with he | he
        · rw [he]
        · exact absurd he (List.not_mem_nil c)
      · exact absurd he (List.not_mem_nil c)
  · intro henv hne husable
    have hcond : cfg.ExportPath ≠ "" ∧
        (cfg.Environment = PartB.EnvDev ∨ cfg.Environment = PartB.EnvProd) :=
      ⟨hne, henv⟩
    constructor
    · refine ⟨PartB.buildConsoleCore st.levels.length, ?_, rfl, rfl⟩
      obtain ⟨rest, hrest⟩ := PartB.console_head openOk svc cfg w st
      rw [hrest]
      exact List.mem_cons_self _ rest
    · refine ⟨⟨EncKind.json, destOf cfg.ExportPath, st.levels.length⟩, ?_, rfl, rfl⟩
      unfold PartB.builtPipeline PartB.NewWithLevel
      simp only [newAtomicLevelAt]
      rw [if_pos hcond,
        PartB.buildJSONExportCore_usable openOk cfg.ExportPath
          st.levels.length husable]
      simp

/-- Witness for C3 (amended) with a usable export file path in prod. -/
theorem C3_encoder_selection_amended_witness :
    pathUsable (fun _ => true) "/log.json" ∧
    ((∃ c ∈ (PartB.builtPipeline (fun _ => true) "svc"
        ⟨"info", "prod", "/log.json", none, false, false, ""⟩ false ⟨[]⟩).cores,
      c.enc = EncKind.console ∧ c.dest = Dest.stdout) ∧
     (∃ c ∈ (PartB.builtPipeline (fun _ => true) "svc"
        ⟨"info", "prod", "/log.json", none, false, false, ""⟩ false ⟨[]⟩).cores,
      c.enc = EncKind.json ∧ c.dest = destOf "/log.json")) :=
  ⟨by decide,
   (C3_encoder_selection_amended (fun _ => true) "svc"
     ⟨"info", "prod", "/log.json", none, false, false, ""⟩ false ⟨[]⟩).2
     (Or.inr rfl) (by decide) (by decide)⟩

/-- The claim C1 exactly as stated: with the Severity Controller set to L,
an event strictly below L reaches no sink, and an event at or above L
reaches every sink the construction built. -/
def claimC1Statement : Prop :=
  ∀ (openOk : String → Bool) (svc : String) (cfg : PartB.Config) (w : Bool)
    (st : AtomicStore) (L : Level) (ss : SamplerState) (e : Event),
    (e.level < L →
      (check (setLevelRef (PartB.builtStore openOk svc cfg w st)
          (PartB.builtRef openOk svc cfg w st) L)
        (PartB.builtPipeline openOk svc cfg w st) ss e).1 = []) ∧
    (L ≤ e.level →
      (check (setLevelRef (PartB.builtStore openOk svc cfg w st)
          (PartB.builtRef openOk svc cfg w st) L)
        (PartB.builtPipeline openOk svc cfg w st) ss e).1 =
        (PartB.builtPipeline openOk svc cfg w st).cores)

/-- C1 counterexample: with Sampling {initial:1, thereafter:0} configured,
the second occurrence of an (info, "m") event inside one window is at the
controller level yet delivered to no sink at all — the sampler drops it.
The sampler state used is the one reached after the first occurrence at
time 0 was delivered. -/
theorem C1_as_stated_false : ¬ claimC1Statement := by
  intro h
  have h2 := (h (fun _ => true) "svc"
    ⟨"info", "local", "", some ⟨1, 0⟩, false, false, ""⟩ true ⟨[]⟩ InfoLevel
    [((InfoLevel, "m"), ⟨tick, 1⟩)] ⟨InfoLevel, "m", 1⟩).2 (by decide)
  exact absurd h2 (by decide)

/-- C1 amended: with the Severity Controller set to L, an event strictly
below L reaches no sink; an event at or above L reaches every sink the
construction built (injected-writer sink included) provided the sampler
admits it — in particular always when no sampling is configured. -/
theorem C1_level_gating_amended (openOk : String → Bool) (svc : String)
    (cfg : PartB.Config) (w : Bool) (st : AtomicStore) (L : Level)
    (ss : SamplerState) (e : Event) :
    (e.level < L →
      (check (setLevelRef (PartB.builtStore openOk svc cfg w st)
          (PartB.builtRef openOk svc cfg w st) L)
        (PartB.builtPipeline openOk svc cfg w st) ss e).1 = []) ∧
    (L ≤ e.level →
      samplerAdmits (PartB.builtPipeline openOk svc cfg w st) ss e →
      (check (setLevelRef (PartB.builtStore openOk svc cfg w st)
          (PartB.builtRef openOk svc cfg w st) L)
        (PartB.builtPipeline openOk svc cfg w st) ss e).1 =
        (PartB.builtPipeline openOk svc cfg w st).cores) := by
  have hreadL : readLevel (setLevelRef (PartB.builtStore openOk svc cfg w st)
      (PartB.builtRef openOk svc cfg w st) L) st.levels.length = L := by
    rw [PartB.builtRef_eq]
    refine readLevel_setLevelRef_self _ _ _ ?_
    rw [PartB.builtStore_eq]
    simp
  constructor
  · intro hb
    refine check_below _ _ _ _ ?_
    intro c hc
    unfold coreEnabled
    rw [PartB.mem_cores_levelRef openOk svc cfg w st c hc, hreadL]
    exact decide_eq_false (not_le.mpr hb)
  · intro ha hadm
    refine check_above _ _ _ _ (PartB.cores_ne_nil openOk svc cfg w st) ?_ hadm
    intro c hc
    unfold coreEnabled
    rw [PartB.mem_cores_levelRef openOk svc cfg w st c hc, hreadL]
    exact decide_eq_true ha

/-- Witness for C1 (amended): controller set to error — a debug event
reaches no sink, an error event (no sampling configured) reaches both the
stdout sink and the injected-writer sink. -/
theorem C1_level_gating_amended_witness :
    ((DebugLevel < ErrorLevel) ∧
      (check (setLevelRef (PartB.builtStore (fun _ => true) "svc"
          ⟨"info", "local", "", none, false, false, ""⟩ true ⟨[]⟩)
          (PartB.builtRef (fun _ => true) "svc"
          ⟨"info", "local", "", none, false, false, ""⟩ true ⟨[]⟩) ErrorLevel)
        (PartB.builtPipeline (fun _ => true) "svc"
          ⟨"info", "local", "", none, false, false, ""⟩ true ⟨[]⟩) []
        ⟨DebugLevel, "m", 0⟩).1 = []) ∧
    ((ErrorLevel ≤ ErrorLevel) ∧
      (check (setLevelRef (PartB.builtStore (fun _ => true) "svc"
          ⟨"info", "local", "", none, false, false, ""⟩ true ⟨[]⟩)
          (PartB.builtRef (fun _ => true) "svc"
          ⟨"info", "local", "", none, false, false, ""⟩ true ⟨[]⟩) ErrorLevel)
        (PartB.builtPipeline (fun _ => true) "svc"
          ⟨"info", "local", "", none, false, false, ""⟩ true ⟨[]⟩) []
        ⟨ErrorLevel, "m", 0⟩).1 =
        (PartB.builtPipeline (fun _ => true) "svc"
          ⟨"info", "local", "", none, false, false, ""⟩ true ⟨[]⟩).cores) :=
  ⟨⟨by decide,
    (C1_level_gating_amended (fun _ => true) "svc"
      ⟨"info", "local", "", none, false, false, ""⟩ true ⟨[]⟩ ErrorLevel []
      ⟨DebugLevel, "m", 0⟩).1 (by decide)⟩,
   ⟨by decide,
    (C1_level_gating_amended (fun _ => true) "svc"
      ⟨"info", "local", "", none, false, false, ""⟩ true ⟨[]⟩ ErrorLevel []
      ⟨ErrorLevel, "m", 0⟩).2 (by decide) trivial⟩⟩

/-- The sampler's drop test is propositionally the specification's emit
rule. -/
theorem emit_iff (sc : SamplerCfg) (n : Nat) :
    (¬ (n > sc.first ∧ (sc.thereafter = 0 ∨
      (n - sc.first) % sc.thereafter ≠ 0))) ↔ specEmitRule sc n := by
  unfold specEmitRule
  generalize (n - sc.first) % sc.thereafter = R
  omega

/-- Inside one open window (all remaining times below the window end `T`),
the decision for the `n`-th remaining occurrence of a key whose counter
already holds `m` is the emit rule at count `m + n + 1`. -/
theorem runSampler_window_aux (sc : SamplerCfg) (lvl : Level) (msg : String)
    (T : Int) :
    ∀ (ts : List Int) (m : Nat), (∀ t ∈ ts, t < T) →
      ∀ n, n < ts.length →
      ((runSampler sc [((lvl, msg), ⟨T, m⟩)]
          (ts.map (fun t => ⟨lvl, msg, t⟩))).1.getD n false = true ↔
        specEmitRule sc (m + n + 1)) := by
  intro ts
  induction ts with
  | nil =>
      intro m hw n hn
      simp at hn
  | cons t ts ih =>
      intro m hw n hn
      have ht : t < T := hw t (List.mem_cons_self t ts)
      have hstep : sampleCheck sc [((lvl, msg), ⟨T, m⟩)] ⟨lvl, msg, t⟩ =
          (decide (¬ ((m + 1) > sc.first ∧ (sc.thereafter = 0 ∨
            (m + 1 - sc.first) % sc.thereafter ≠ 0))),
           [((lvl, msg), ⟨T, m + 1⟩)]) := by
        unfold sampleCheck lookupCounter insertCounter incCheckReset
        simp [if_pos ht]
      cases n with
      | zero =>
          simp only [List.map_cons, runSampler, hstep, List.getD_cons_zero,
            decide_eq_true_eq]
          exact emit_iff sc (m + 1)
      | succ n' =>
          have hrec := ih (m + 1)
            (fun t' ht' => hw t' (List.mem_cons_of_mem t ht')) n'
            (by simpa using hn)
          have harr : m + 1 + n' + 1 = m + (n' + 1) + 1 := by omega
          rw [harr] at hrec
          simpa only [List.map_cons, runSampler, hstep, List.getD_cons_succ]
            using hrec

/-- C2: per (level, message) key within one rolling one-second window, the
n-th occurrence is emitted iff `n ≤ initial ∨ (thereafter > 0 ∧
(n - initial) % thereafter = 0)` (so with thereafter = 0 nothing after the
first `initial`); with {initial:2, thereafter:3}, of 10 identical events in
one window exactly occurrences 1, 2, 5 and 8 are emitted; and an
occurrence past the one-second boundary restarts the per-key counter at
1. -/
theorem C2_sampling_decision (sc : SamplerCfg) (lvl : Level) (msg : String)
    (t0 : Int) (rest : List Int) (h0 : 0 ≤ t0)
    (hw : ∀ t ∈ rest, t < t0 + tick) :
    (∀ n, n < (t0 :: rest).length →
      ((runSampler sc [] ((t0 :: rest).map (fun t => ⟨lvl, msg, t⟩))).1.getD n
          false = true ↔ specEmitRule sc (n + 1))) ∧
    ((runSampler ⟨2, 3⟩ []
        (List.replicate 10 (⟨InfoLevel, "m", 0⟩ : Event))).1 =
      [true, true, false, false, true, false, false, true, false, false]) ∧
    (∀ t1, t0 + tick ≤ t1 →
      (lookupCounter
        (runSampler sc [] [⟨lvl, msg, t0⟩, ⟨lvl, msg, t1⟩]).2
        (lvl, msg)).count = 1 ∧
      ((runSampler sc [] [⟨lvl, msg, t0⟩, ⟨lvl, msg, t1⟩]).1.getD 1 false =
          true ↔ specEmitRule sc 1)) := by
  have hfirst : sampleCheck sc [] ⟨lvl, msg, t0⟩ =
      (decide (¬ (1 > sc.first ∧ (sc.thereafter = 0 ∨
        (1 - sc.first) % sc.thereafter ≠ 0))),
       [((lvl, msg), ⟨t0 + tick, 1⟩)]) := by
    unfold sampleCheck lookupCounter insertCounter incCheckReset initCounter
    simp [if_neg (not_lt.mpr h0)]
  refine ⟨?_, by decide, ?_⟩
  · intro n hn
    cases n with
    | zero =>
        simp only [List.map_cons, runSampler, hfirst, List.getD_cons_zero,
          decide_eq_true_eq]
        exact emit_iff sc 1
    | succ n' =>
        have hrec := runSampler_window_aux sc lvl msg (t0 + tick) rest 1 hw n'
          (by simpa using hn)
        have harr : 1 + n' + 1 = n' + 1 + 1 := by omega
        rw [harr] at hrec
        simpa only [List.map_cons, runSampler, hfirst, List.getD_cons_succ]
          using hrec
  · intro t1 ht1
    have hsecond : sampleCheck sc [((lvl, msg), ⟨t0 + tick, 1⟩)]
        ⟨lvl, msg, t1⟩ =
        (decide (¬ (1 > sc.first ∧ (sc.thereafter = 0 ∨
          (1 - sc.first) % sc.thereafter ≠ 0))),
         [((lvl, msg), ⟨t1 + tick, 1⟩)]) := by
      unfold sampleCheck lookupCounter insertCounter incCheckReset
      simp [if_neg (not_lt.mpr ht1)]
    constructor
    · simp [runSampler, hfirst, hsecond, lookupCounter]
    · simp only [runSampler, hfirst, hsecond, List.getD_cons_succ,
        List.getD_cons_zero, decide_eq_true_eq]
      exact emit_iff sc 1

/-- Witness for C2: three identical info events at times 0, 1, 2 inside one
window under {initial:2, thereafter:3}; the theorem decides occurrence 3. -/
theorem C2_sampling_decision_witness :
    ((0 : Int) ≤ 0 ∧ (∀ t ∈ ([1, 2] : List Int), t < 0 + tick)) ∧
    ((runSampler ⟨2, 3⟩ []
        (([0, 1, 2] : List Int).map
          (fun t => ⟨InfoLevel, "m", t⟩))).1.getD 2 false = true ↔
      specEmitRule ⟨2, 3⟩ 3) :=
  ⟨⟨by decide, by decide⟩,
   (C2_sampling_decision ⟨2, 3⟩ InfoLevel "m" 0 [1, 2] (by decide)
     (by decide)).1 2 (by decide)⟩

/-- Flushes never change the written content: every step preserves the
content except an emit, which appends its record. -/
theorem runWatch_content (evs : List SEvent) :
    ∀ s : WatchState,
      (evs.foldl stepWatch s).content = s.content ++ emittedRecords evs := by
  induction evs with
  | nil =>
      intro s
      simp [emittedRecords]
  | cons ev evs ih =>
      intro s
      cases ev with
      | cancel =>
          rw [List.foldl_cons, ih]
          have hc : (stepWatch s SEvent.cancel).content = s.content := by
            by_cases hf : s.fired = true
            · simp [stepWatch, hf]
            · simp [stepWatch, hf]
          rw [hc]
          simp [emittedRecords]
      | emit record =>
          rw [List.foldl_cons, ih]
          simp [stepWatch, emittedRecords]
      | syncCall =>
          rw [List.foldl_cons, ih]
          simp [stepWatch, emittedRecords]

/-- The watcher performs its flush exactly on the first cancellation it has
not yet consumed, and never again. -/
theorem runWatch_watcherSyncs (evs : List SEvent) :
    ∀ s : WatchState,
      (evs.foldl stepWatch s).watcherSyncs =
        s.watcherSyncs +
          (if s.fired = false ∧ SEvent.cancel ∈ evs then 1 else 0) := by
  induction evs with
  | nil =>
      intro s
      simp
  | cons ev evs ih =>
      intro s
      cases ev with
      | cancel =>
          by_cases hf : s.fired = true
          · have hstep : stepWatch s SEvent.cancel = s := by
              simp [stepWatch, hf]
            rw [List.foldl_cons, hstep, ih]
            simp [hf]
          · have hfalse : s.fired = false := by
              cases hb : s.fired
              · rfl
              · exact absurd hb hf
            have hstep : stepWatch s SEvent.cancel =
                ⟨true, s.watcherSyncs + 1, s.totalSyncs + 1, s.content⟩ := by
              simp [stepWatch, hfalse]
            rw [List.foldl_cons, hstep, ih]
            simp [hfalse]
      | emit record =>
          rw [List.foldl_cons, ih]
          simp [stepWatch]
      | syncCall =>
          rw [List.foldl_cons, ih]
          simp [stepWatch]

/-- C8: when the construction context is cancelled the watcher flushes
exactly once and then stops — repeated cancellations cause no further
watcher flush; flushing is idempotent on the written output: neither the
watcher's flush nor any explicit flush changes the delivered content, so a
second cancellation or a watcher-plus-explicit-flush combination cannot
double-write (and the model surfaces no error on any step). -/
theorem C8_shutdown_single_flush (evs : List SEvent) :
    ((runWatch evs).watcherSyncs = if SEvent.cancel ∈ evs then 1 else 0) ∧
    ((runWatch evs).content = emittedRecords evs) ∧
    (∀ s : WatchState,
      stepWatch (stepWatch s SEvent.cancel) SEvent.cancel =
        stepWatch s SEvent.cancel) ∧
    (∀ s : WatchState,
      (stepWatch s SEvent.syncCall).content = s.content ∧
      (stepWatch s SEvent.cancel).content = s.content) := by
  refine ⟨?_, ?_, ?_, ?_⟩
  · unfold runWatch
    rw [runWatch_watcherSyncs evs initWatch]
    simp [initWatch]
  · unfold runWatch
    rw [runWatch_content evs initWatch]
    simp [initWatch]
  · intro s
    by_cases hf : s.fired = true
    · simp [stepWatch, hf]
    · have hfalse : s.fired = false := by
        cases hb : s.fired
        · rfl
        · exact absurd hb hf
      simp [stepWatch, hfalse]
  · intro s
    constructor
    · rfl
    · by_cases hf : s.fired = true
      · simp [stepWatch, hf]
      · simp [stepWatch, hf]

end Zapang
